import Mathlib

/-!
Verification development for the posture-review summary script
(`posture_review.ts`, v17 revision, which the specification designates as the
authoritative behaviour).  The script reads a configuration sheet, a master
application registry and several posture data sheets from a workbook,
aggregates per-application values and rewrites a "Posture Summary" sheet.

The embedding below is a shallow model of the v17 `main` function and its
helpers.  Cells are modelled by a closed variant (`Cell`); JavaScript numbers
are modelled by exact rationals (`ℚ`), which agrees with JavaScript doubles on
every concrete value appearing in the theorems; `localeCompare` and the default
`Array.sort` comparator are both modelled by the lexicographic order on
strings, which agrees with them on the ASCII data used here.  The Excel I/O
boundary is modelled by a `Workbook`: a name-indexed association list of cell
grids (row 0 is the header row), matching the used-range read path of the
script; early `return` statements of `main` are modelled by returning the
workbook unchanged.
-/

namespace PostureReview

/-- A worksheet cell as delivered by `getValues()`: string, number or boolean
(blank cells arrive as the empty string). -/
inductive Cell where
  | str (s : String)
  | num (q : ℚ)
  | bool (b : Bool)
  deriving DecidableEq, Repr

/-- Left-pad a digit string with zeros up to the given length. -/
def padLeftZeros (s : String) (len : Nat) : String :=
  if s.length ≥ len then s else String.mk (List.replicate (len - s.length) '0') ++ s

/-- Decimal rendering of a rational, modelling JavaScript
`Number.prototype.toString` on the values that occur in this development:
integers print as integers, terminating decimals print with no trailing
zeros.  (Non-terminating decimals cannot arise from the numeric literals used
here; they get a fallback rendering.) -/
def numToString (q : ℚ) : String :=
  match (List.range 21).find? (fun k => (q * (10 : ℚ) ^ k).den = 1) with
  | some 0 => toString q.num
  | some k =>
    let m : Int := (q * (10 : ℚ) ^ k).num
    let s := padLeftZeros (toString m.natAbs) (k + 1)
    (if m < 0 then "-" else "") ++ s.dropRight k ++ "." ++ s.takeRight k
  | none => toString q.num ++ "/" ++ toString q.den

/-- `value?.toString()` on a cell. -/
def Cell.toStr : Cell → String
  | .str s => s
  | .num q => numToString q
  | .bool b => if b then "true" else "false"

/-- `toLowerCase()` (ASCII, as the data in this repository is). -/
def jsToLower (s : String) : String := String.mk (s.data.map Char.toLower)

/-- `toUpperCase()` (ASCII). -/
def jsToUpper (s : String) : String := String.mk (s.data.map Char.toUpper)

/-- `trim()`: strip leading and trailing whitespace. -/
def jsTrim (s : String) : String :=
  String.mk (((s.data.dropWhile Char.isWhitespace).reverse.dropWhile Char.isWhitespace).reverse)

/-- `split(sep)` for a single-character separator. -/
def splitOnCharList (sep : Char) : List Char → List (List Char)
  | [] => [[]]
  | c :: rest =>
    let r := splitOnCharList sep rest
    if c = sep then [] :: r
    else
      match r with
      | [] => [[c]]
      | g :: gs => (c :: g) :: gs

/-- `split("|||")`: left-to-right scan for the three-bar internal separator
used by the Count grouping key. -/
def splitTripleBar : List Char → List (List Char)
  | '|' :: '|' :: '|' :: rest => [] :: splitTripleBar rest
  | [] => [[]]
  | c :: rest =>
    match splitTripleBar rest with
    | [] => [[c]]
    | g :: gs => (c :: g) :: gs

/-- Lexicographic comparison of character lists by code point. -/
def charListLeB : List Char → List Char → Bool
  | [], _ => true
  | _ :: _, [] => false
  | a :: as, b :: bs =>
    if a.toNat < b.toNat then true
    else if b.toNat < a.toNat then false
    else charListLeB as bs

/-- `Math.max` on two integers. -/
def maxI (a b : Int) : Int := if a ≤ b then b else a

/-- Stable insertion into an ascending list: the new element goes after every
element that compares `le` to it, so equal elements keep their original
relative order (matching the stability of JavaScript `Array.sort`). -/
def stableInsert {α : Type} (le : α → α → Bool) (x : α) : List α → List α
  | [] => [x]
  | y :: ys => if le y x then y :: stableInsert le x ys else x :: y :: ys

/-- Stable ascending sort, modelling `Array.prototype.sort` with an ascending
comparator (and the default string comparator). -/
def stableSort {α : Type} (le : α → α → Bool) (xs : List α) : List α :=
  xs.foldl (fun acc x => stableInsert le x acc) []

/-- Boolean lexicographic string order, modelling both the default
`Array.sort` string comparator (code-unit order) and `localeCompare` on the
ASCII data of this repository. -/
def strLeB (a b : String) : Bool := charListLeB a.data b.data

/-- First-occurrence deduplication, modelling `Array.from(new Set(xs))`. -/
def dedupKeepFirst (xs : List String) : List String :=
  xs.foldl (fun acc x => if acc.contains x then acc else acc ++ [x]) []

/-- `Set.add`: append if not already present (insertion order preserved). -/
def addUnique (xs : List String) (x : String) : List String :=
  if xs.contains x then xs else xs ++ [x]

/-- `raw.split(',').map(h => h.trim()).filter(h => h)`. -/
def splitAndClean (s : String) : List String :=
  (((splitOnCharList ',' s.data).map String.mk).map jsTrim).filter (fun t => t ≠ "")

/-- `raw.charAt(0).toUpperCase() + raw.slice(1).toLowerCase()`. -/
def capitalizeJs (s : String) : String :=
  match s.data with
  | [] => ""
  | c :: cs => String.mk (c.toUpper :: cs.map Char.toLower)

/-- `value.replace(/[^0-9.-]+/g, "")`: keep only digits, `.` and `-`. -/
def cleanNumericString (s : String) : String :=
  String.mk (s.data.filter (fun c => c.isDigit || c = '.' || c = '-'))

/-- Value of a list of decimal digit characters. -/
def digitsToNat (cs : List Char) : Nat :=
  cs.foldl (fun n c => 10 * n + (c.toNat - 48)) 0

/-- Parse an unsigned decimal literal (digits with at most one `.`, at least
one digit); `none` models `NaN`. -/
def parseUnsignedDec (cs : List Char) : Option ℚ :=
  if cs.all (fun c => c.isDigit || c = '.') ∧ cs.count '.' ≤ 1 ∧ cs.any Char.isDigit then
    let intPart := cs.takeWhile (fun c => c ≠ '.')
    let fracPart := (cs.dropWhile (fun c => c ≠ '.')).drop 1
    some ((digitsToNat intPart : ℚ) + (digitsToNat fracPart : ℚ) / (10 : ℚ) ^ fracPart.length)
  else none

/-- JavaScript `Number(s)` on a string: the empty (trimmed) string converts to
`0`; otherwise an optionally signed decimal literal; anything else is `NaN`
(modelled as `none`).  In the script this is only ever applied to strings
already stripped to the alphabet `[0-9.-]`. -/
def jsStringToNumber (s : String) : Option ℚ :=
  let t := jsTrim s
  if t = "" then some 0
  else match t.data with
    | '-' :: rest => (parseUnsignedDec rest).map (fun q => -q)
    | '+' :: rest => parseUnsignedDec rest
    | cs => parseUnsignedDec cs

/-- `parseNumber(value)` from the script: `null`/`undefined`/`""` give `null`;
strings are stripped to `[0-9.-]` and passed to `Number(...)`; numbers pass
through; booleans convert via `Number` to `1`/`0`; `NaN` gives `null`. -/
def parseNumber : Option Cell → Option ℚ
  | none => none
  | some (.str s) => if s = "" then none else jsStringToNumber (cleanNumericString s)
  | some (.num q) => some q
  | some (.bool b) => some (if b then 1 else 0)

/-- `avg.toFixed(2)` followed by `parseFloat`: round to two decimal places,
ties toward the larger value (ECMA `toFixed` tie-break). -/
def toFixed2 (q : ℚ) : ℚ := ((⌊q * 100 + 1 / 2⌋ : ℤ) : ℚ) / 100

abbrev Row := List Cell
abbrev Grid := List Row

/-- `findColumnIndex(headerRowValues, possibleHeaders)`: for each candidate in
order (skipping falsy ones), the index of the first case-insensitive trimmed
match in the header row; `none` models `-1`. -/
def findColumnIndex (headerRow : Row) : List String → Option Nat
  | [] => none
  | h :: rest =>
    if h = "" then findColumnIndex headerRow rest
    else
      let lower := jsTrim (jsToLower h)
      match headerRow.findIdx? (fun c => jsTrim (jsToLower c.toStr) = lower) with
      | some i => some i
      | none => findColumnIndex headerRow rest

/-- `-1`-valued view of a resolved column index, for `Math.max` arithmetic. -/
def optIdxToInt : Option Nat → Int
  | none => -1
  | some n => n

/-- `row[i]?.toString()`. -/
def cellStrAt (row : Row) (i : Nat) : Option String := (row.get? i).map Cell.toStr

/-- The seven aggregation strategies (`AggregationMethod`). -/
inductive AggregationMethod where
  | list
  | count
  | sum
  | average
  | min
  | max
  | uniqueList
  deriving DecidableEq, Repr

/-- Strategy-string dispatch: normalize via `capitalizeJs` and compare against
the `allowedAggTypes` array, defaulting to `List` (with a warning) when no
entry matches.  Note the `"UniqueList"` comparison: `capitalizeJs` lowercases
every character after the first, so this branch can never be taken. -/
def parseAggType (raw : String) : AggregationMethod :=
  if capitalizeJs raw = "List" then .list
  else if capitalizeJs raw = "Count" then .count
  else if capitalizeJs raw = "Sum" then .sum
  else if capitalizeJs raw = "Average" then .average
  else if capitalizeJs raw = "Min" then .min
  else if capitalizeJs raw = "Max" then .max
  else if capitalizeJs raw = "UniqueList" then .uniqueList
  else .list

/-- `needsDataHeaders.includes(aggregationType)`. -/
def needsDataHeadersB : AggregationMethod → Bool
  | .list | .count | .uniqueList => true
  | _ => false

/-- `needsValueHeader.includes(aggregationType)`. -/
def needsValueHeaderB : AggregationMethod → Bool
  | .sum | .average | .min | .max => true
  | _ => false

/-- `PostureSheetConfig` (v17 shape). -/
structure PostureSheetConfig where
  sheetName : String
  appIdHeaders : List String
  dataHeadersToPull : List String
  aggregationType : AggregationMethod
  valueHeaderForAggregation : Option String
  masterFieldsForRow : List String
  deriving DecidableEq, Repr

/-- The resolved configuration column indices.  `IsEnabled`, `SheetName`,
`AppIdHeaders` and `AggregationType` are essential (the run halts when any is
missing); the remaining three may be absent (`-1`). -/
structure ConfigCols where
  isEnabled : Nat
  sheetName : Nat
  appIdHeaders : Nat
  aggType : Nat
  dataHeaders : Option Nat
  valueHeader : Option Nat
  masterFields : Option Nat
  deriving DecidableEq, Repr

/-- Header-alias resolution for the configuration sheet; `none` when an
essential column is missing (fatal). -/
def resolveConfigCols (headerRow : Row) : Option ConfigCols :=
  match findColumnIndex headerRow ["IsEnabled", "Enabled"],
        findColumnIndex headerRow ["SheetName", "Sheet Name"],
        findColumnIndex headerRow ["AppIdHeaders", "App ID Headers", "Application ID Headers"],
        findColumnIndex headerRow ["AggregationType", "Aggregation Type"] with
  | some a, some b, some c, some d =>
    some ⟨a, b, c, d,
      findColumnIndex headerRow ["DataHeadersToPull", "Data Headers"],
      findColumnIndex headerRow ["ValueHeaderForAggregation", "Value Header"],
      findColumnIndex headerRow ["MasterAppFieldsToPull", "Master Fields"]⟩
  | _, _, _, _ => none

/-- `Math.max` over all seven resolved column indices (missing optional
columns contribute `-1`). -/
def configMaxIndex (cols : ConfigCols) : Int :=
  maxI (maxI (maxI (maxI (maxI (maxI (Int.ofNat cols.isEnabled) (Int.ofNat cols.sheetName))
    (Int.ofNat cols.appIdHeaders)) (Int.ofNat cols.aggType)) (optIdxToInt cols.dataHeaders))
    (optIdxToInt cols.valueHeader)) (optIdxToInt cols.masterFields)

/-- Outcome of scanning a single configuration data row.  Master-field names
are collected into the global set *before* the remaining skip/validation
checks, so skipped-late and invalid rows still contribute them. -/
inductive RowResult where
  | ignore
  | ignoreWithFields (fields : List String)
  | ok (cfg : PostureSheetConfig) (fields : List String)
  | bad (fields : List String)
  deriving DecidableEq, Repr

/-- Does this row outcome carry a hard validation error? -/
def RowResult.isBad : RowResult → Bool
  | .bad _ => true
  | _ => false

/-- The rule produced by this row outcome, if any. -/
def RowResult.okRule : RowResult → Option PostureSheetConfig
  | .ok cfg _ => some cfg
  | _ => none

/-- The master-field names this row outcome adds to the global set. -/
def RowResult.fields : RowResult → List String
  | .ignore => []
  | .ignoreWithFields fs => fs
  | .ok _ fs => fs
  | .bad fs => fs

/-- The body of the configuration parsing loop, for one data row: bounds
check, trim, enabled check, raw field extraction, list splitting,
master-field collection, strategy normalization and hard validation. -/
def parseRowResult (cols : ConfigCols) (row : Row) : RowResult :=
  if (row.length : Int) ≤ configMaxIndex cols then .ignore
  else
    let cleanRow := row.map (fun c => match c with | .str s => .str (jsTrim s) | other => other)
    if (cellStrAt cleanRow cols.isEnabled).map jsToUpper = some "TRUE" then
      let sheetName := (cellStrAt cleanRow cols.sheetName).getD ""
      let appIdHeadersRaw := (cellStrAt cleanRow cols.appIdHeaders).getD ""
      let aggTypeRaw :=
        let s := (cellStrAt cleanRow cols.aggType).getD ""
        if s = "" then "List" else s
      let dataHeadersRaw :=
        match cols.dataHeaders with
        | none => ""
        | some i => (cellStrAt cleanRow i).getD ""
      let valueHeader : Option String :=
        cols.valueHeader.bind (fun i => (cellStrAt cleanRow i).map jsTrim)
      let masterFieldsRaw :=
        match cols.masterFields with
        | none => ""
        | some i => (cellStrAt cleanRow i).getD ""
      if sheetName = "" ∨ appIdHeadersRaw = "" then .ignore
      else
        let appIdHeaders := splitAndClean appIdHeadersRaw
        let dataHeadersToPull := splitAndClean dataHeadersRaw
        let masterFieldsForRow := splitAndClean masterFieldsRaw
        if appIdHeaders = [] then .ignoreWithFields masterFieldsForRow
        else
          let aggType := parseAggType aggTypeRaw
          let cfg : PostureSheetConfig :=
            ⟨sheetName, appIdHeaders, dataHeadersToPull, aggType, valueHeader, masterFieldsForRow⟩
          let rowValid : Bool :=
            if needsDataHeadersB aggType && dataHeadersToPull.isEmpty then false
            else if needsValueHeaderB aggType then
              match valueHeader with
              | none => false
              | some v => if v = "" then false else dataHeadersToPull.contains v
            else true
          if rowValid then .ok cfg masterFieldsForRow else .bad masterFieldsForRow
    else .ignore

/-- Accumulated state of the configuration scan: valid rules in order, the
ordered set of requested master fields, and the global validity flag. -/
structure ConfigParseState where
  rules : List PostureSheetConfig
  masterFields : List String
  valid : Bool
  deriving DecidableEq, Repr

/-- Fold one configuration row into the scan state. -/
def parseConfigRow (cols : ConfigCols) (st : ConfigParseState) (row : Row) : ConfigParseState :=
  match parseRowResult cols row with
  | .ignore => st
  | .ignoreWithFields fs => { st with masterFields := fs.foldl addUnique st.masterFields }
  | .ok cfg fs =>
    { st with
        masterFields := fs.foldl addUnique st.masterFields
        rules := st.rules ++ [cfg] }
  | .bad fs =>
    { st with
        masterFields := fs.foldl addUnique st.masterFields
        valid := false }

/-- Scan every configuration data row (the scan never stops early; errors only
clear the validity flag). -/
def parseConfigRows (cols : ConfigCols) (rows : List Row) : ConfigParseState :=
  rows.foldl (parseConfigRow cols) ⟨[], [], true⟩

/-- Order-preserving association-list lookup (JavaScript `Map.get` / object
property access). -/
def alookup {α : Type} (key : String) : List (String × α) → Option α
  | [] => none
  | (k, v) :: rest => if k = key then some v else alookup key rest

/-- The workbook: worksheet name → cell grid of its used range (row 0 is the
header row).  An absent name models a missing worksheet; an empty grid models
a worksheet with no used range. -/
structure Workbook where
  sheets : List (String × Grid)
  deriving DecidableEq, Repr

/-- `workbook.getWorksheet(name)` + `getUsedRange().getValues()`. -/
def getSheet (wb : Workbook) (name : String) : Option Grid :=
  alookup name wb.sheets

/-- `delete()` any existing worksheet of that name and `addWorksheet(name)`
with the given contents (the fresh sheet is appended). -/
def setSheet (wb : Workbook) (name : String) (g : Grid) : Workbook :=
  ⟨(wb.sheets.filter (fun p => p.1 ≠ name)) ++ [(name, g)]⟩

/-- Step 1 of `main`: read the `Config` sheet, resolve the header schema,
scan all data rows.  `none` models every fatal early return (sheet missing,
header-only sheet, essential column missing, hard validation error recorded
anywhere during the scan). -/
def loadConfig (wb : Workbook) : Option (List PostureSheetConfig × List String) :=
  match getSheet wb "Config" with
  | none => none
  | some g =>
    if g.length ≤ 1 then none
    else
      match resolveConfigCols (g.headD []) with
      | none => none
      | some cols =>
        let st := parseConfigRows cols (g.drop 1)
        if st.valid then some (st.rules, st.masterFields) else none

/-- Per-application master registry attributes (`MasterAppData`). -/
abbrev MasterAppData := List (String × Cell)

/-- Step 2 of `main`: read the `Applications` sheet, resolve the
`Application ID` column (fatal when missing) and each requested master field
column (missing ones dropped with a warning), then build the ordered
first-wins set of identifiers plus the per-identifier attribute map. -/
def loadMaster (wb : Workbook) (masterFieldsToPull : List String) :
    Option (List String × List (String × MasterAppData)) :=
  match getSheet wb "Applications" with
  | none => none
  | some g =>
    if g.length ≤ 1 then none
    else
      let headerRow := g.headD []
      match findColumnIndex headerRow ["Application ID"] with
      | none => none
      | some idIdx =>
        let fieldCols : List (String × Nat) :=
          masterFieldsToPull.filterMap
            (fun f => (findColumnIndex headerRow [f]).map (fun i => (f, i)))
        some ((g.drop 1).foldl
          (fun (acc : List String × List (String × MasterAppData)) row =>
            if row.length ≤ idIdx then acc
            else
              let appId := ((row.get? idIdx).map (fun c => jsTrim c.toStr)).getD ""
              if appId = "" then acc
              else if acc.1.contains appId then acc
              else
                let appData : MasterAppData :=
                  fieldCols.filterMap
                    (fun fc =>
                      if row.length > fc.2 then (row.get? fc.2).map (fun c => (fc.1, c))
                      else none)
                (acc.1 ++ [appId], acc.2 ++ [(appId, appData)]))
          ([], []))

/-- `PostureDataObject`: application id → data header → accumulated raw
values, all in insertion order. -/
abbrev AppData := List (String × List Cell)
abbrev Store := List (String × AppData)

/-- `appData[headerName].push(value)` (creating the list on first use). -/
def appDataAppend (d : AppData) (h : String) (v : Cell) : AppData :=
  match d with
  | [] => [(h, [v])]
  | (k, vs) :: rest => if k = h then (k, vs ++ [v]) :: rest else (k, vs) :: appDataAppend rest h v

/-- `if (!postureDataMap[appId]) postureDataMap[appId] = {}`. -/
def storeEnsure (st : Store) (a : String) : Store :=
  match st with
  | [] => [(a, [])]
  | (k, d) :: rest => if k = a then (k, d) :: rest else (k, d) :: storeEnsure rest a

/-- Append one value to `postureDataMap[appId][headerName]`. -/
def storeAppend (st : Store) (a h : String) (v : Cell) : Store :=
  match st with
  | [] => [(a, [(h, [v])])]
  | (k, d) :: rest =>
    if k = a then (k, appDataAppend d h v) :: rest else (k, d) :: storeAppend rest a h v

/-- `getValuesFromMap(dataMap, appId, headerName)`:
`dataMap[appId]?.[headerName] ?? []`. -/
def getValuesFromMap (st : Store) (a h : String) : List Cell :=
  ((alookup a st).bind (fun d => alookup h d)).getD []

/-- `getAlignedValuesForRowConcatenation`: the per-header value lists in
header order, together with the length of the longest one. -/
def getAligned (st : Store) (a : String) (headers : List String) : List (List Cell) × Nat :=
  headers.foldl
    (fun (acc : List (List Cell) × Nat) h =>
      let vs := getValuesFromMap st a h
      (acc.1 ++ [vs], Max.max acc.2 vs.length))
    ([], 0)

/-- Is a missing data column critical for this rule (abort the whole rule)? -/
def isCritical (cfg : PostureSheetConfig) (h : String) : Bool :=
  match cfg.aggregationType with
  | .list | .count => cfg.dataHeadersToPull.contains h
  | .uniqueList => cfg.dataHeadersToPull.head? = some h
  | _ => cfg.valueHeaderForAggregation = some h

/-- Resolve every needed data column of a rule against a posture sheet header
row; `none` models `requiredHeadersAvailable = false` (a critical column was
missing and the loop broke out). -/
def resolveDataCols (cfg : PostureSheetConfig) (headerRow : Row) :
    List String → Option (List (String × Nat))
  | [] => some []
  | h :: rest =>
    if h = "" then resolveDataCols cfg headerRow rest
    else
      match findColumnIndex headerRow [h] with
      | some i => (resolveDataCols cfg headerRow rest).map (fun tl => (h, i) :: tl)
      | none => if isCritical cfg h then none else resolveDataCols cfg headerRow rest

/-- `columnsAvailableForProcessing`: second strategy-specific guard that the
resolved index map really contains everything the rule needs. -/
def secondGuard (cfg : PostureSheetConfig) (dataCols : List (String × Nat)) : Bool :=
  match cfg.aggregationType with
  | .list | .count => cfg.dataHeadersToPull.all (fun h => (alookup h dataCols).isSome)
  | .uniqueList =>
    match cfg.dataHeadersToPull.head? with
    | none => false
    | some h => if h = "" then false else (alookup h dataCols).isSome
  | _ =>
    match cfg.valueHeaderForAggregation with
    | none => false
    | some v => if v = "" then false else (alookup v dataCols).isSome

/-- Body of the `dataColIndicesMap.forEach` callback: bounds-check the data
column and append its value when non-empty. -/
def colStep (row : Row) (appId : String) (st2 : Store) (hc : String × Nat) : Store :=
  if row.length > hc.2 then
    let v := (row.get? hc.2).getD (Cell.str "")
    if v ≠ Cell.str "" then storeAppend st2 appId hc.1 v else st2
  else st2

/-- Scan one posture data row: bounds-check the id column, trim the id, join
against the master set, and append every in-bounds non-empty data value. -/
def processRow (masterIds : List String) (appIdCol : Nat) (dataCols : List (String × Nat))
    (st : Store) (row : Row) : Store :=
  if row.length ≤ appIdCol then st
  else
    let appId := ((row.get? appIdCol).map (fun c => jsTrim c.toStr)).getD ""
    if appId ≠ "" ∧ masterIds.contains appId then
      dataCols.foldl (colStep row appId) (storeEnsure st appId)
    else st

/-- `headersToCheckSet`: the deduplicated data headers plus the value header
when set and non-empty. -/
def headersRequiredOf (cfg : PostureSheetConfig) : List String :=
  dedupKeepFirst
    (cfg.dataHeadersToPull ++
      (match cfg.valueHeaderForAggregation with
       | some v => if v = "" then [] else [v]
       | none => []))

/-- Step 3 of `main`, one rule: read the rule's sheet, resolve its id column
and data columns (skipping the whole rule on any critical failure), then fold
every data row into the shared store. -/
def extractConfig (wb : Workbook) (masterIds : List String) (st : Store)
    (cfg : PostureSheetConfig) : Store :=
  match getSheet wb cfg.sheetName with
  | none => st
  | some g =>
    if g.length ≤ 1 then st
    else
      let headerRow := g.headD []
      match findColumnIndex headerRow cfg.appIdHeaders with
      | none => st
      | some appIdCol =>
        match resolveDataCols cfg headerRow (headersRequiredOf cfg) with
        | none => st
        | some dataCols =>
          if secondGuard cfg dataCols then
            (g.drop 1).foldl (processRow masterIds appIdCol dataCols) st
          else st

/-- Step 3 of `main`: process every rule in declared order against the shared
store. -/
def extractAll (wb : Workbook) (masterIds : List String) (cfgs : List PostureSheetConfig) :
    Store :=
  cfgs.foldl (extractConfig wb masterIds) []

/-- `groupCounts.set(k, (groupCounts.get(k) || 0) + 1)` over an insertion
ordered map. -/
def mapIncr (m : List (String × Nat)) (k : String) : List (String × Nat) :=
  match m with
  | [] => [(k, 1)]
  | (k2, n) :: rest => if k2 = k then (k2, n + 1) :: rest else (k2, n) :: mapIncr rest k

/-- Group-count fold over the aligned row keys. -/
def countsFold (keys : List String) : List (String × Nat) :=
  keys.foldl mapIncr []

/-- `Count` aggregation: group the aligned rows by their `"|||"`-joined key
tuple, sort the groups by key (`localeCompare`), format each line as
`"<v1> - <v2>: <count>"` and join with newline; zero rows give numeric `0`. -/
def countCell (st : Store) (appId : String) (headers : List String) : Cell :=
  let p := getAligned st appId headers
  if p.2 = 0 then .num 0
  else
    let keys := (List.range p.2).map (fun i =>
      String.intercalate "|||" ((List.range headers.length).map (fun j =>
        ((p.1.getD j []).getD i (Cell.str "")).toStr)))
    let sorted := stableSort (fun a b => strLeB a.1 b.1) (countsFold keys)
    let lines := sorted.map (fun e =>
      String.intercalate " - " ((splitTripleBar e.1.data).map String.mk) ++ ": " ++ toString e.2)
    .str (String.intercalate "\n" lines)

/-- `List` aggregation: for each aligned row index, join that row's per-header
string values with `" - "` and join the lines with newline; no rows give the
missing sentinel (empty string). -/
def listCell (st : Store) (appId : String) (headers : List String) : Cell :=
  let p := getAligned st appId headers
  if p.2 = 0 then .str ""
  else
    .str (String.intercalate "\n" ((List.range p.2).map (fun i =>
      String.intercalate " - " ((List.range headers.length).map (fun j =>
        ((p.1.getD j []).getD i (Cell.str "")).toStr)))))

/-- `Sum`/`Average`/`Min`/`Max` aggregation over the value header's list:
coerce via `parseNumber`, drop `null`s; an empty numeric set gives the missing
sentinel.  `Average` is rounded to two decimals via `toFixed(2)`. -/
def numericCell (m : AggregationMethod) (st : Store) (appId : String) (vh : String) : Cell :=
  let values := getValuesFromMap st appId vh
  let nums := values.filterMap (fun v => parseNumber (some v))
  match nums with
  | [] => .str ""
  | x :: rest =>
    match m with
    | .sum => .num ((x :: rest).foldl (· + ·) 0)
    | .average => .num (toFixed2 (((x :: rest).foldl (· + ·) 0) / ((x :: rest).length : ℚ)))
    | .min => .num (rest.foldl Min.min x)
    | .max => .num (rest.foldl Max.max x)
    | _ => .str ""

/-- `UniqueList` aggregation over the first data header's list: stringify,
deduplicate (first occurrence), sort ascending, join with newline. -/
def uniqueListCell (st : Store) (appId : String) (h : String) : Cell :=
  let values := getValuesFromMap st appId h
  if values = [] then .str ""
  else
    .str (String.intercalate "\n"
      (stableSort strLeB (dedupKeepFirst (values.map Cell.toStr))))

/-- The aggregation switch of the summary row loop. -/
def aggregateCell (st : Store) (appId : String) (cfg : PostureSheetConfig) : Cell :=
  match cfg.aggregationType with
  | .count => countCell st appId cfg.dataHeadersToPull
  | .list => listCell st appId cfg.dataHeadersToPull
  | .sum | .average | .min | .max =>
    numericCell cfg.aggregationType st appId (cfg.valueHeaderForAggregation.getD "")
  | .uniqueList => uniqueListCell st appId (cfg.dataHeadersToPull.headD "")

/-- `postureColumnConfigMap`: one summary column per distinct rule
`sheetName`, first rule wins, later duplicates dropped with a warning. -/
def buildPostureColumns (cfgs : List PostureSheetConfig) : List (String × PostureSheetConfig) :=
  cfgs.foldl
    (fun acc c => if (alookup c.sheetName acc).isSome then acc else acc ++ [(c.sheetName, c)])
    []

/-- The summary header schema: identifier header, master fields in first-seen
order, then one column per deduplicated rule sheet name. -/
def summaryHeadersOf (masterFields : List String) (cfgs : List PostureSheetConfig) :
    List String :=
  "Application ID" :: (masterFields ++ (buildPostureColumns cfgs).map Prod.fst)

/-- One assembled summary row: identifier, master field values (missing
sentinel when absent), then one aggregated cell per posture column. -/
def buildRow (cols : List (String × PostureSheetConfig)) (masterFields : List String)
    (mmap : List (String × MasterAppData)) (st : Store) (appId : String) : Row :=
  let masterData := (alookup appId mmap).getD []
  Cell.str appId ::
    (masterFields.map (fun f => (alookup f masterData).getD (Cell.str "")) ++
      cols.map (fun hc => aggregateCell st appId hc.2))

/-- All assembled rows in ascending identifier order, keeping only rows whose
length equals the header schema length (the column-count invariant guard). -/
def outputRowsOf (cfgs : List PostureSheetConfig) (masterFields : List String)
    (mmap : List (String × MasterAppData)) (st : Store) (ids : List String) : Grid :=
  ((stableSort strLeB ids).map (buildRow (buildPostureColumns cfgs) masterFields mmap st)).filter
    (fun r => r.length = (summaryHeadersOf masterFields cfgs).length)

/-- The data rows actually handed to `setValues`: written only when the first
row exists and (re-)passes the column-count check. -/
def writtenRowsOf (headers : List String) (rows : Grid) : Grid :=
  match rows with
  | [] => []
  | r :: _ => if r.length = headers.length then rows else []

/-- The full grid of the freshly created summary sheet. -/
def finalGridOf (cfgs : List PostureSheetConfig) (masterFields : List String)
    (mmap : List (String × MasterAppData)) (st : Store) (ids : List String) : Grid :=
  let headers := summaryHeadersOf masterFields cfgs
  headers.map Cell.str :: writtenRowsOf headers (outputRowsOf cfgs masterFields mmap st ids)

/-- The whole v17 `main` run as a workbook transformer.  Every fatal early
return (config sheet missing or header-only, essential config column missing,
hard validation error, zero valid enabled rules, master sheet missing or
header-only, master id column missing) leaves the workbook untouched;
otherwise the `Posture Summary` sheet is deleted and recreated with the
assembled grid. -/
def runMain (wb : Workbook) : Workbook :=
  match loadConfig wb with
  | none => wb
  | some (cfgs, masterFieldsToPull) =>
    if cfgs = [] then wb
    else
      match loadMaster wb masterFieldsToPull with
      | none => wb
      | some (ids, mmap) =>
        let store := extractAll wb ids cfgs
        setSheet wb "Posture Summary" (finalGridOf cfgs masterFieldsToPull mmap store ids)

/-!
## Specification-side definitions

`listCellSpec` renders the `List` aggregation exactly as the specification
words it, to be compared with the translated `listCell`: "for each row index
up to the longest per-header value list, join that index's per-header string
values with the separator `" - "` (shorter lists contributing empty string at
that index), and join the resulting lines with newline".
-/

/-- The `List` cell as the specification describes it. -/
def listCellSpec (st : Store) (appId : String) (headers : List String) : String :=
  let n := (headers.map (fun h => (getValuesFromMap st appId h).length)).foldr Max.max 0
  String.intercalate "\n" ((List.range n).map (fun i =>
    String.intercalate " - " (headers.map (fun h =>
      let vs := getValuesFromMap st appId h
      if i < vs.length then ((vs.getD i (Cell.str ""))).toStr else ""))))

/-!
## Concrete scenario workbooks
-/

/-- Count scenario of the specification: one enabled Count rule on a
`Patches` sheet, master set `{A1, A2}`. -/
def wbCount : Workbook := ⟨[
  ("Config", [
    [.str "IsEnabled", .str "SheetName", .str "AppIdHeaders", .str "DataHeadersToPull",
     .str "AggregationType"],
    [.str "TRUE", .str "Patches", .str "UniqueID", .str "Severity", .str "Count"]]),
  ("Applications", [[.str "Application ID"], [.str "A1"], [.str "A2"]]),
  ("Patches", [
    [.str "UniqueID", .str "Severity"],
    [.str "A1", .str "High"], [.str "A1", .str "High"], [.str "A1", .str "Low"],
    [.str "A2", .str "High"]])]⟩

/-- UniqueList scenario: the configuration cell holds the string
`"UniqueList"`; the entity's `Tag` values arrive as `["b","a","a"]`. -/
def wbUnique : Workbook := ⟨[
  ("Config", [
    [.str "IsEnabled", .str "SheetName", .str "AppIdHeaders", .str "DataHeadersToPull",
     .str "AggregationType"],
    [.str "TRUE", .str "Tags", .str "UniqueID", .str "Tag", .str "UniqueList"]]),
  ("Applications", [[.str "Application ID"], [.str "A1"]]),
  ("Tags", [
    [.str "UniqueID", .str "Tag"],
    [.str "A1", .str "b"], [.str "A1", .str "a"], [.str "A1", .str "a"]])]⟩

/-- A UniqueList rule as the specification intends it (strategy actually
`uniqueList`), for exercising the aggregation branch directly. -/
def cfgUniqueIntended : PostureSheetConfig :=
  ⟨"Tags", ["UniqueID"], ["Tag"], .uniqueList, none, []⟩

/-- Sum/Average scenario store: entity `A1` accumulated `Cost` values
`["10", "bad", "20.5"]`. -/
def storeSumAvg : Store := [("A1", [("Cost", [.str "10", .str "bad", .str "20.5"])])]

/-- A small store for exercising the List aggregation directly. -/
def storeTags : Store := [("A1", [("Tag", [.str "b", .str "a", .str "a"])])]

/-- Duplicate-source scenario: two enabled valid rules both target `Patches`,
the first with strategy Count, the second with strategy List. -/
def wbDupSource : Workbook := ⟨[
  ("Config", [
    [.str "IsEnabled", .str "SheetName", .str "AppIdHeaders", .str "DataHeadersToPull",
     .str "AggregationType"],
    [.str "TRUE", .str "Patches", .str "UniqueID", .str "Severity", .str "Count"],
    [.str "TRUE", .str "Patches", .str "UniqueID", .str "Severity", .str "List"]]),
  ("Applications", [[.str "Application ID"], [.str "A1"], [.str "A2"]]),
  ("Patches", [
    [.str "UniqueID", .str "Severity"],
    [.str "A1", .str "High"], [.str "A1", .str "High"], [.str "A1", .str "Low"],
    [.str "A2", .str "High"]])]⟩

/-- Duplicate-rule scenario for the accumulation question: two *identical*
enabled Count rules on `Patches`. -/
def wbDupRules : Workbook := ⟨[
  ("Config", [
    [.str "IsEnabled", .str "SheetName", .str "AppIdHeaders", .str "DataHeadersToPull",
     .str "AggregationType"],
    [.str "TRUE", .str "Patches", .str "UniqueID", .str "Severity", .str "Count"],
    [.str "TRUE", .str "Patches", .str "UniqueID", .str "Severity", .str "Count"]]),
  ("Applications", [[.str "Application ID"], [.str "A1"], [.str "A2"]]),
  ("Patches", [
    [.str "UniqueID", .str "Severity"],
    [.str "A1", .str "High"], [.str "A1", .str "High"], [.str "A1", .str "Low"],
    [.str "A2", .str "High"]])]⟩

/-- The single rule shared by both rows of `wbDupRules`. -/
def cfgDupCount : PostureSheetConfig :=
  ⟨"Patches", ["UniqueID"], ["Severity"], .count, none, []⟩

/-- Zero-valid-rule scenario: the only configuration row is disabled, and a
stale `Posture Summary` sheet already exists. -/
def wbZeroRules : Workbook := ⟨[
  ("Config", [
    [.str "IsEnabled", .str "SheetName", .str "AppIdHeaders", .str "DataHeadersToPull",
     .str "AggregationType"],
    [.str "FALSE", .str "Patches", .str "UniqueID", .str "Severity", .str "Count"]]),
  ("Applications", [[.str "Application ID"], [.str "A1"]]),
  ("Posture Summary", [[.str "stale"]])]⟩

/-- Fail-closed scenario configuration grid: the first enabled data row is
hard-invalid (Sum with no value header column at all), the second is valid. -/
def badConfigGrid : Grid := [
  [.str "IsEnabled", .str "SheetName", .str "AppIdHeaders", .str "DataHeadersToPull",
   .str "AggregationType"],
  [.str "TRUE", .str "Costs", .str "UniqueID", .str "Cost", .str "Sum"],
  [.str "TRUE", .str "Patches", .str "UniqueID", .str "Severity", .str "List"]]

/-- Fail-closed scenario: an invalid configuration row exists, and a stale
summary sheet is present. -/
def wbBadConfig : Workbook := ⟨[
  ("Config", badConfigGrid),
  ("Applications", [[.str "Application ID"], [.str "A1"]]),
  ("Posture Summary", [[.str "stale"]]),
  ("Patches", [[.str "UniqueID", .str "Severity"], [.str "A1", .str "High"]])]⟩

/-- The hard-invalid first data row of `wbBadConfig`. -/
def badConfigRow : Row :=
  [.str "TRUE", .str "Costs", .str "UniqueID", .str "Cost", .str "Sum"]

/-- The resolved configuration columns of the five-column test header. -/
def colsFive : ConfigCols := ⟨0, 1, 2, 4, some 3, none, none⟩

/-!
## Theorems
-/

attribute [local semireducible] Rat.add Rat.mul Rat.inv

/-- `Char.toLower` never produces the upper-case letter `L`. -/
theorem toLower_ne_upperL (c : Char) : Char.toLower c ≠ 'L' := by
  intro h
  simp only [Char.toLower] at h
  split at h
  · rename_i hrange
    obtain ⟨h1, h2⟩ := hrange
    revert h
    generalize Char.toNat c = n at h1 h2
    interval_cases n <;> decide
  · rename_i hrange
    subst h
    exact hrange (by decide)

/-- The normalized strategy string can never be `"UniqueList"`: every
character after the first is lower-cased. -/
theorem capitalizeJs_ne_UniqueList (raw : String) : capitalizeJs raw ≠ "UniqueList" := by
  intro h
  rcases hd : raw.data with _ | ⟨c, cs⟩ <;> simp only [capitalizeJs, hd] at h
  · exact absurd h (by decide)
  · have hdata : c.toUpper :: cs.map Char.toLower = ['U','n','i','q','u','e','L','i','s','t'] :=
      congrArg String.data h
    have htail : cs.map Char.toLower = ['n','i','q','u','e','L','i','s','t'] :=
      (List.cons_eq_cons.mp hdata).2
    have hL : 'L' ∈ cs.map Char.toLower := by rw [htail]; decide
    obtain ⟨x, _, hxl⟩ := List.mem_map.mp hL
    exact toLower_ne_upperL x hxl

/-- No raw configuration cell value can select the UniqueList strategy. -/
theorem parseAggType_never_uniqueList (raw : String) :
    parseAggType raw ≠ AggregationMethod.uniqueList := by
  unfold parseAggType
  split_ifs with h1 h2 h3 h4 h5 h6 h7 <;>
    first
      | exact absurd h7 (capitalizeJs_ne_UniqueList raw)
      | decide

/-- C3: with one enabled Count rule on `Patches` over data header `Severity`,
source rows `[A1,High],[A1,High],[A1,Low],[A2,High]` and master set
`{A1,A2}`, the summary holds Count cell `"High: 2\nLow: 1"` for `A1` and
`"High: 1"` for `A2` (groups counted per distinct value, lines sorted by
group key, joined with newline). -/
theorem c3_count_aggregation_scenario :
    getSheet (runMain wbCount) "Posture Summary" =
      some [[Cell.str "Application ID", Cell.str "Patches"],
            [Cell.str "A1", Cell.str "High: 2\nLow: 1"],
            [Cell.str "A2", Cell.str "High: 1"]] := by
  decide

/-- C5: the claim fails because of a slip in the strategy normalizer.  A
configuration cell holding exactly `"UniqueList"` is normalized to
`"Uniquelist"`, which is not in the allowed strategy list, so the rule falls
back to `List` and the cell for values `["b","a","a"]` is `"b\na\na"` —
the UniqueList aggregation branch (which would indeed produce the claimed
`"a\nb"`) is unreachable for every raw strategy string. -/
theorem c5_uniquelist_normalization_bug :
    parseAggType "UniqueList" = AggregationMethod.list
    ∧ capitalizeJs "UniqueList" = "Uniquelist"
    ∧ (∀ raw : String, parseAggType raw ≠ AggregationMethod.uniqueList)
    ∧ getSheet (runMain wbUnique) "Posture Summary" =
        some [[Cell.str "Application ID", Cell.str "Tags"],
              [Cell.str "A1", Cell.str "b\na\na"]]
    ∧ uniqueListCell (extractAll wbUnique ["A1"] [cfgUniqueIntended]) "A1" "Tag"
        = Cell.str "a\nb" :=
  ⟨by decide, by decide, parseAggType_never_uniqueList, by decide, by decide⟩

/-- C6, counterexample: with accumulated `Cost` values `["10","bad","20.5"]`
the Average cell is `10.17`, not the claimed `15.25` — `"bad"` strips to the
empty string, which `Number(...)` coerces to `0`, so it is counted. -/
theorem c6_average_counterexample :
    numericCell .average storeSumAvg "A1" "Cost" = Cell.num (1017 / 100)
    ∧ Cell.num ((1017 : ℚ) / 100) ≠ Cell.num (1525 / 100) := by
  exact ⟨by decide, by decide⟩

/-- C6, amended: the Sum cell is `30.5` and the Average cell `10.17`; a
string whose stripped form is empty (like `"bad"`) coerces to `0` and is
included in both the sum and the divisor, rather than being dropped. -/
theorem c6_sum_average_amended :
    numericCell .sum storeSumAvg "A1" "Cost" = Cell.num (61 / 2)
    ∧ numericCell .average storeSumAvg "A1" "Cost" = Cell.num (1017 / 100)
    ∧ parseNumber (some (Cell.str "bad")) = some 0
    ∧ parseNumber (some (Cell.str "10")) = some 10
    ∧ parseNumber (some (Cell.str "20.5")) = some (41 / 2) := by
  exact ⟨by decide, by decide, by decide, by decide, by decide⟩

/-- C7, counterexample: `toNumber("abc")` does not return `null` — the strip
leaves the empty string and JavaScript `Number("")` is `0`. -/
theorem c7_abc_counterexample : parseNumber (some (Cell.str "abc")) ≠ none := by
  decide

/-- C7, amended: `toNumber("$1,234.56") = 1234.56`, `toNumber("") = null`,
`toNumber(null) = null`, but `toNumber("abc") = 0`; in general a string maps
to `null` exactly when it is empty, or its stripped form is non-empty and
fails the numeric parse (a stripped form that is empty parses as `0`). -/
theorem c7_numeric_coercion_amended :
    parseNumber (some (Cell.str "$1,234.56")) = some (30864 / 25)
    ∧ parseNumber (some (Cell.str "abc")) = some 0
    ∧ parseNumber (some (Cell.str "")) = none
    ∧ parseNumber none = none
    ∧ (∀ s : String, parseNumber (some (Cell.str s)) = none ↔
        (s = "" ∨ (cleanNumericString s ≠ ""
          ∧ jsStringToNumber (cleanNumericString s) = none))) := by
  refine ⟨by decide, by decide, by decide, rfl, fun s => ?_⟩
  by_cases hs : s = ""
  · subst hs
    simp [parseNumber]
  · simp only [parseNumber, if_neg hs]
    constructor
    · intro hnone
      refine Or.inr ⟨fun hemp => ?_, hnone⟩
      rw [hemp] at hnone
      exact absurd hnone (by decide)
    · rintro (h | ⟨-, h⟩)
      · exact absurd h hs
      · exact h

/-- C9, amended: when config parsing succeeds but zero valid enabled rules
remain, the run is an informational no-op that leaves the workbook — in
particular any existing summary destination — completely untouched; no
(empty) summary is written. -/
theorem c9_zero_rules_no_op (wb : Workbook) (mf : List String)
    (h : loadConfig wb = some ([], mf)) : runMain wb = wb := by
  unfold runMain
  rw [h]
  simp

/-- Witness for `c9_zero_rules_no_op` at the concrete zero-rule workbook. -/
theorem c9_zero_rules_no_op_witness : runMain wbZeroRules = wbZeroRules :=
  c9_zero_rules_no_op wbZeroRules [] (by decide)

/-- C1: every assembled summary row has exactly the header schema's length. -/
theorem c1_column_count_invariant (cfgs : List PostureSheetConfig) (mf : List String)
    (mmap : List (String × MasterAppData)) (st : Store) (ids : List String) :
    (∀ a : String,
        (buildRow (buildPostureColumns cfgs) mf mmap st a).length
          = (summaryHeadersOf mf cfgs).length)
    ∧ (∀ r ∈ outputRowsOf cfgs mf mmap st ids,
        r.length = (summaryHeadersOf mf cfgs).length)
    ∧ (outputRowsOf cfgs mf mmap st ids
        = ((stableSort strLeB ids).map (buildRow (buildPostureColumns cfgs) mf mmap st)).filter
            (fun r => r.length = (summaryHeadersOf mf cfgs).length))
    ∧ (∀ r ∈ writtenRowsOf (summaryHeadersOf mf cfgs) (outputRowsOf cfgs mf mmap st ids),
        r.length = (summaryHeadersOf mf cfgs).length) := by
  have hlen : ∀ a : String,
      (buildRow (buildPostureColumns cfgs) mf mmap st a).length
        = (summaryHeadersOf mf cfgs).length := by
    intro a
    simp [buildRow, summaryHeadersOf]
  have hmem : ∀ r ∈ outputRowsOf cfgs mf mmap st ids,
      r.length = (summaryHeadersOf mf cfgs).length := by
    intro r hr
    unfold outputRowsOf at hr
    exact of_decide_eq_true (List.mem_filter.mp hr).2
  refine ⟨hlen, hmem, rfl, ?_⟩
  intro r hr
  unfold writtenRowsOf at hr
  rcases ho : outputRowsOf cfgs mf mmap st ids with _ | ⟨r0, rest⟩ <;> rw [ho] at hr
  · simp at hr
  · dsimp only at hr
    split at hr
    · exact hmem r (ho ▸ hr)
    · simp at hr

/-- Witness for `c1_column_count_invariant` at a concrete assembled row. -/
theorem c1_column_count_witness :
    (buildRow (buildPostureColumns [cfgDupCount]) [] [] [] "A1").length
      = (summaryHeadersOf [] [cfgDupCount]).length :=
  (c1_column_count_invariant [cfgDupCount] [] [] [] ["A1"]).2.1
    (buildRow (buildPostureColumns [cfgDupCount]) [] [] [] "A1") (by decide)

/-- One configuration row leaves the scan state's validity flag clear exactly
when the row carries a hard validation error. -/
theorem parseConfigRow_valid (cols : ConfigCols) (st : ConfigParseState) (row : Row) :
    (parseConfigRow cols st row).valid = (st.valid && !(parseRowResult cols row).isBad) := by
  unfold parseConfigRow
  rcases h : parseRowResult cols row <;> simp [RowResult.isBad]

/-- One configuration row appends its rule (if any) to the scan state. -/
theorem parseConfigRow_rules (cols : ConfigCols) (st : ConfigParseState) (row : Row) :
    (parseConfigRow cols st row).rules
      = st.rules ++ (parseRowResult cols row).okRule.toList := by
  unfold parseConfigRow
  rcases h : parseRowResult cols row <;> simp [RowResult.okRule]

/-- The configuration scan's validity flag is clear exactly when some scanned
row carries a hard error, regardless of where in the scan it sits. -/
theorem parseConfigRows_go_valid (cols : ConfigCols) :
    ∀ (rows : List Row) (st : ConfigParseState),
      (rows.foldl (parseConfigRow cols) st).valid
        = (st.valid && rows.all (fun r => !(parseRowResult cols r).isBad)) := by
  intro rows
  induction rows with
  | nil => intro st; simp
  | cons r rs ih =>
    intro st
    simp only [List.foldl_cons, List.all_cons]
    rw [ih, parseConfigRow_valid, Bool.and_assoc]

/-- The configuration scan collects the rules of every valid row, in order —
errors on other rows never stop the scan. -/
theorem parseConfigRows_go_rules (cols : ConfigCols) :
    ∀ (rows : List Row) (st : ConfigParseState),
      (rows.foldl (parseConfigRow cols) st).rules
        = st.rules ++ rows.filterMap (fun r => (parseRowResult cols r).okRule) := by
  intro rows
  induction rows with
  | nil => intro st; simp
  | cons r rs ih =>
    intro st
    simp only [List.foldl_cons, List.filterMap_cons]
    rw [ih, parseConfigRow_rules]
    rcases h : (parseRowResult cols r).okRule <;> simp

/-- C2: a hard validation error on any enabled configuration row makes the
whole run a no-op — the workbook (in particular the summary destination) is
untouched and no extraction or write happens — while the scan itself still
classifies every row and collects every valid rule. -/
theorem c2_fail_closed_config (wb : Workbook) (g : Grid) (cols : ConfigCols)
    (hg : getSheet wb "Config" = some g)
    (hlen : 1 < g.length)
    (hcols : resolveConfigCols (g.headD []) = some cols)
    (hbad : ∃ row ∈ g.drop 1, (parseRowResult cols row).isBad = true) :
    runMain wb = wb
    ∧ (parseConfigRows cols (g.drop 1)).rules
        = (g.drop 1).filterMap (fun r => (parseRowResult cols r).okRule) := by
  have hvalid : (parseConfigRows cols (g.drop 1)).valid = false := by
    unfold parseConfigRows
    rw [parseConfigRows_go_valid]
    obtain ⟨row, hmem, hb⟩ := hbad
    simp only [Bool.true_and]
    exact List.all_eq_false.mpr ⟨row, hmem, by simp [hb]⟩
  have hload : loadConfig wb = none := by
    unfold loadConfig
    rw [hg]
    simp only [if_neg (by omega : ¬ g.length ≤ 1), hcols, hvalid]
    simp
  refine ⟨?_, ?_⟩
  · unfold runMain
    rw [hload]
  · unfold parseConfigRows
    rw [parseConfigRows_go_rules]
    simp

/-- Witness for `c2_fail_closed_config` at the concrete bad-config workbook. -/
theorem c2_fail_closed_witness :
    runMain wbBadConfig = wbBadConfig
    ∧ (parseConfigRows colsFive (badConfigGrid.drop 1)).rules
        = (badConfigGrid.drop 1).filterMap (fun r => (parseRowResult colsFive r).okRule) :=
  c2_fail_closed_config wbBadConfig badConfigGrid colsFive (by decide) (by decide) (by decide)
    ⟨badConfigRow, by decide, by decide⟩

/-- Lookup distributes over association-list append. -/
theorem alookup_append {α : Type} (key : String) (l1 l2 : List (String × α)) :
    alookup key (l1 ++ l2)
      = match alookup key l1 with
        | some v => some v
        | none => alookup key l2 := by
  induction l1 with
  | nil => simp [alookup]
  | cons p rest ih =>
    rcases p with ⟨k, v⟩
    by_cases hk : k = key
    · simp [alookup, hk]
    · simp only [List.cons_append, alookup, if_neg hk]
      exact ih

/-- Lookup misses exactly the keys outside the list. -/
theorem alookup_eq_none_iff {α : Type} (key : String) (l : List (String × α)) :
    alookup key l = none ↔ key ∉ l.map Prod.fst := by
  induction l with
  | nil => simp [alookup]
  | cons p rest ih =>
    rcases p with ⟨k, v⟩
    by_cases hk : k = key
    · simp [alookup, hk]
    · simp [alookup, if_neg hk, ih, Ne.symm hk]

/-- The posture column map resolves every sheet name to the first rule naming
it: later duplicates never replace the owner. -/
theorem alookup_buildPostureColumns_go (name : String) :
    ∀ (cfgs : List PostureSheetConfig) (acc : List (String × PostureSheetConfig)),
      alookup name
          (cfgs.foldl
            (fun acc c =>
              if (alookup c.sheetName acc).isSome then acc else acc ++ [(c.sheetName, c)])
            acc)
        = match alookup name acc with
          | some c => some c
          | none => cfgs.find? (fun c => c.sheetName = name) := by
  intro cfgs
  induction cfgs with
  | nil =>
    intro acc
    simp only [List.foldl_nil, List.find?_nil]
    rcases alookup name acc <;> rfl
  | cons c rest ih =>
    intro acc
    simp only [List.foldl_cons]
    rw [ih]
    by_cases hc : (alookup c.sheetName acc).isSome
    · rw [if_pos hc]
      rcases ha : alookup name acc with _ | v
      · have hne : ¬ c.sheetName = name := by
          intro he
          rw [he, ha] at hc
          simp at hc
        simp [List.find?_cons, hne]
      · simp [List.find?_cons]
    · rw [if_neg hc]
      rw [alookup_append]
      rcases ha : alookup name acc with _ | v
      · by_cases he : c.sheetName = name
        · simp [alookup, he, List.find?_cons]
        · simp [alookup, he, List.find?_cons]
      · simp [List.find?_cons]

/-- Folding the posture column map keeps its keys pairwise distinct. -/
theorem buildPostureColumns_go_nodup :
    ∀ (cfgs : List PostureSheetConfig) (acc : List (String × PostureSheetConfig)),
      (acc.map Prod.fst).Nodup →
      ((cfgs.foldl
          (fun acc c =>
            if (alookup c.sheetName acc).isSome then acc else acc ++ [(c.sheetName, c)])
          acc).map Prod.fst).Nodup := by
  intro cfgs
  induction cfgs with
  | nil => intro acc h; simpa using h
  | cons c rest ih =>
    intro acc h
    simp only [List.foldl_cons]
    by_cases hc : (alookup c.sheetName acc).isSome
    · rw [if_pos hc]
      exact ih acc h
    · rw [if_neg hc]
      refine ih _ ?_
      have hnotin : c.sheetName ∉ acc.map Prod.fst := by
        rw [← alookup_eq_none_iff]
        rcases hl : alookup c.sheetName acc with _ | v
        · rfl
        · rw [hl] at hc; simp at hc
      simp [List.nodup_append, h, hnotin]

/-- C8: when two enabled valid rules name the same source sheet, the summary
header schema holds that sheet name once (keys are pairwise distinct), the
column is owned by the first rule with that name, and a run with such a
duplicate still completes and writes the summary (with the first rule's
aggregation in the shared column). -/
theorem c8_duplicate_source_first_wins :
    (∀ (cfgs : List PostureSheetConfig) (name : String),
        alookup name (buildPostureColumns cfgs)
          = cfgs.find? (fun c => c.sheetName = name))
    ∧ (∀ cfgs : List PostureSheetConfig, ((buildPostureColumns cfgs).map Prod.fst).Nodup)
    ∧ getSheet (runMain wbDupSource) "Posture Summary" =
        some [[Cell.str "Application ID", Cell.str "Patches"],
              [Cell.str "A1", Cell.str "High: 4\nLow: 2"],
              [Cell.str "A2", Cell.str "High: 2"]] := by
  refine ⟨fun cfgs name => ?_, fun cfgs => ?_, by decide⟩
  · unfold buildPostureColumns
    rw [alookup_buildPostureColumns_go]
    rfl
  · exact buildPostureColumns_go_nodup cfgs [] (by simp)

/-- Unrolled form of the `getAlignedValuesForRowConcatenation` loop. -/
theorem getAligned_go (st : Store) (a : String) :
    ∀ (hs : List String) (acc : List (List Cell) × Nat),
      hs.foldl
          (fun (acc : List (List Cell) × Nat) h =>
            let vs := getValuesFromMap st a h
            (acc.1 ++ [vs], Max.max acc.2 vs.length))
          acc
        = (acc.1 ++ hs.map (getValuesFromMap st a),
           (hs.map (fun h => (getValuesFromMap st a h).length)).foldl Max.max acc.2) := by
  intro hs
  induction hs with
  | nil => intro acc; simp
  | cons h rest ih =>
    intro acc
    simp only [List.foldl_cons, List.map_cons]
    rw [ih]
    simp

/-- Left and right max-folds over naturals agree. -/
theorem foldl_max_eq_max_foldr :
    ∀ (l : List Nat) (a : Nat), l.foldl Max.max a = Max.max a (l.foldr Max.max 0) := by
  intro l
  induction l with
  | nil => intro a; simp
  | cons x xs ih =>
    intro a
    simp only [List.foldl_cons, List.foldr_cons]
    rw [ih, max_assoc]

/-- `getAlignedValuesForRowConcatenation` returns the per-header value lists
and the length of the longest one. -/
theorem getAligned_eq (st : Store) (a : String) (hs : List String) :
    getAligned st a hs
      = (hs.map (getValuesFromMap st a),
         (hs.map (fun h => (getValuesFromMap st a h).length)).foldr Max.max 0) := by
  unfold getAligned
  rw [getAligned_go, foldl_max_eq_max_foldr]
  simp

/-- A member of a list is bounded by the right max-fold. -/
theorem mem_le_foldr_max {x : Nat} {l : List Nat} (h : x ∈ l) :
    x ≤ l.foldr Max.max 0 := by
  induction l with
  | nil => cases h
  | cons y ys ih =>
    simp only [List.foldr_cons]
    rcases List.mem_cons.mp h with h1 | h2
    · subst h1; exact le_max_left _ _
    · exact le_trans (ih h2) (le_max_right _ _)

/-- In-range indexing into a mapped list. -/
theorem getD_map_lt {α β : Type} (f : α → β) (d : β) (d2 : α) :
    ∀ (hs : List α) (j : Nat), j < hs.length → (hs.map f).getD j d = f (hs.getD j d2) := by
  intro hs
  induction hs with
  | nil => intro j hj; simp at hj
  | cons x xs ih =>
    intro j hj
    cases j with
    | zero => simp
    | succ n =>
      simp only [List.map_cons, List.getD_cons_succ]
      exact ih n (by simpa using hj)

/-- Mapping an indexed read over `range` recovers the plain map. -/
theorem range_map_getD {α β : Type} (f : α → β) (d : α) :
    ∀ hs : List α, (List.range hs.length).map (fun j => f (hs.getD j d)) = hs.map f := by
  intro hs
  induction hs with
  | nil => simp
  | cons x xs ih =>
    rw [List.length_cons, List.range_succ_eq_map, List.map_cons, List.map_map]
    simp only [Function.comp_def, List.getD_cons_zero, List.getD_cons_succ]
    rw [ih, List.map_cons]

/-- C4: whenever an entity has at least one accumulated value under the
rule's data headers, the List cell is exactly the specification's row-aligned
rendering: for each row index up to the longest per-header list, the
per-header values at that index (empty string where a list is shorter) joined
with `" - "`, and the lines joined with newline. -/
theorem c4_list_row_aligned (st : Store) (appId : String) (headers : List String)
    (h : ∃ hh ∈ headers, getValuesFromMap st appId hh ≠ []) :
    listCell st appId headers = Cell.str (listCellSpec st appId headers) := by
  have hal := getAligned_eq st appId headers
  have hpos :
      0 < (headers.map (fun hh => (getValuesFromMap st appId hh).length)).foldr Max.max 0 := by
    obtain ⟨hh, hmem, hne⟩ := h
    have hm : (getValuesFromMap st appId hh).length
        ∈ headers.map (fun hh => (getValuesFromMap st appId hh).length) :=
      List.mem_map_of_mem _ hmem
    have hle := mem_le_foldr_max hm
    have hl : 0 < (getValuesFromMap st appId hh).length := List.length_pos.mpr hne
    omega
  unfold listCell listCellSpec
  rw [hal]
  dsimp only
  rw [if_neg (by omega)]
  congr 1
  congr 1
  apply List.map_congr_left
  intro i _
  congr 1
  have hstep1 :
      (List.range headers.length).map
          (fun j => (((headers.map (getValuesFromMap st appId)).getD j []).getD i
            (Cell.str "")).toStr)
        = (List.range headers.length).map
            (fun j => (((getValuesFromMap st appId (headers.getD j ""))).getD i
              (Cell.str "")).toStr) := by
    apply List.map_congr_left
    intro j hj
    rw [getD_map_lt (getValuesFromMap st appId) [] "" headers j (List.mem_range.mp hj)]
  rw [hstep1,
    range_map_getD (fun hh => ((getValuesFromMap st appId hh).getD i (Cell.str "")).toStr) ""]
  apply List.map_congr_left
  intro hh _
  by_cases hi : i < (getValuesFromMap st appId hh).length
  · rw [if_pos hi]
  · rw [if_neg hi]
    rw [List.getD_eq_default _ _ (by omega)]
    rfl

/-- Witness for `c4_list_row_aligned` at a concrete store. -/
theorem c4_list_row_aligned_witness :
    listCell storeTags "A1" ["Tag"] = Cell.str (listCellSpec storeTags "A1" ["Tag"]) :=
  c4_list_row_aligned storeTags "A1" ["Tag"] ⟨"Tag", by decide, by decide⟩

/-- Appending a value touches exactly its own header key. -/
theorem alookup_appDataAppend (d : AppData) (h h2 : String) (v : Cell) :
    alookup h2 (appDataAppend d h v)
      = if h2 = h then some ((alookup h d).getD [] ++ [v]) else alookup h2 d := by
  induction d with
  | nil =>
    by_cases he : h2 = h
    · subst he; simp [appDataAppend, alookup]
    · simp [appDataAppend, alookup, he, Ne.symm he]
  | cons p rest ih =>
    rcases p with ⟨k, vs⟩
    by_cases hk : k = h
    · subst hk
      simp only [appDataAppend, if_pos rfl]
      by_cases h2k : h2 = k
      · subst h2k; simp [alookup]
      · simp [alookup, h2k, Ne.symm h2k]
    · simp only [appDataAppend, if_neg hk]
      by_cases h2k : k = h2
      · subst h2k
        simp [alookup, hk]
      · simp only [alookup, if_neg h2k, ih]
        by_cases hh : h2 = h
        · simp [hh, alookup, if_neg h2k, hk]
        · simp [hh]

/-- Appending a value touches exactly its own application key. -/
theorem alookup_storeAppend (st : Store) (a h : String) (v : Cell) (a2 : String) :
    alookup a2 (storeAppend st a h v)
      = if a2 = a then some (appDataAppend ((alookup a st).getD []) h v)
        else alookup a2 st := by
  induction st with
  | nil =>
    by_cases ha : a2 = a
    · subst ha; simp [storeAppend, alookup, appDataAppend]
    · simp [storeAppend, alookup, ha, Ne.symm ha]
  | cons p rest ih =>
    rcases p with ⟨k, d⟩
    by_cases hk : k = a
    · subst hk
      simp only [storeAppend, if_pos rfl]
      by_cases ha2 : a2 = k
      · subst ha2; simp [alookup]
      · simp [alookup, ha2, Ne.symm ha2]
    · simp only [storeAppend, if_neg hk]
      by_cases ha2 : k = a2
      · subst ha2
        simp [alookup, hk]
      · by_cases ha : a2 = a
        · subst ha; simp [alookup, if_neg ha2, ih, hk]
        · simp [alookup, if_neg ha2, ih, ha, hk]

/-- Ensuring an application entry only materialises an empty record. -/
theorem alookup_storeEnsure (st : Store) (a a2 : String) :
    alookup a2 (storeEnsure st a)
      = if a2 = a then some ((alookup a st).getD []) else alookup a2 st := by
  induction st with
  | nil =>
    by_cases ha : a2 = a
    · subst ha; simp [storeEnsure, alookup]
    · simp [storeEnsure, alookup, ha, Ne.symm ha]
  | cons p rest ih =>
    rcases p with ⟨k, d⟩
    by_cases hk : k = a
    · subst hk
      simp only [storeEnsure, if_pos rfl]
      by_cases ha2 : a2 = k
      · subst ha2; simp [alookup]
      · simp [alookup, ha2, Ne.symm ha2]
    · simp only [storeEnsure, if_neg hk]
      by_cases ha2 : k = a2
      · subst ha2
        simp [alookup, hk]
      · by_cases ha : a2 = a
        · subst ha; simp [alookup, if_neg ha2, ih, hk]
        · simp [alookup, if_neg ha2, ih, ha, hk]

/-- The accumulated values after a `storeAppend`. -/
theorem gv_storeAppend (st : Store) (a h : String) (v : Cell) (a2 h2 : String) :
    getValuesFromMap (storeAppend st a h v) a2 h2
      = if a2 = a ∧ h2 = h then getValuesFromMap st a2 h2 ++ [v]
        else getValuesFromMap st a2 h2 := by
  unfold getValuesFromMap
  rw [alookup_storeAppend]
  by_cases ha : a2 = a
  · rw [if_pos ha]
    simp only [Option.some_bind]
    rw [alookup_appDataAppend]
    by_cases hh : h2 = h
    · rw [if_pos hh, if_pos ⟨ha, hh⟩, ha, hh]
      rcases alookup a st with _ | d <;> simp [alookup]
    · rw [if_neg hh, if_neg (fun hc => hh hc.2), ha]
      rcases alookup a st with _ | d <;> simp [alookup]
  · rw [if_neg ha, if_neg (fun hc => ha hc.1)]

/-- `storeEnsure` never changes any accumulated value list. -/
theorem gv_storeEnsure (st : Store) (a a2 h2 : String) :
    getValuesFromMap (storeEnsure st a) a2 h2 = getValuesFromMap st a2 h2 := by
  unfold getValuesFromMap
  rw [alookup_storeEnsure]
  by_cases ha : a2 = a
  · rw [if_pos ha, ha]
    simp only [Option.some_bind]
    rcases alookup a st with _ | d <;> simp [alookup]
  · rw [if_neg ha]

/-- One data-column step contributes its appended value independently of the
store it starts from. -/
theorem gv_colStep (row : Row) (appId : String) (st2 : Store) (hc : String × Nat)
    (a h : String) :
    getValuesFromMap (colStep row appId st2 hc) a h
      = getValuesFromMap st2 a h ++ getValuesFromMap (colStep row appId [] hc) a h := by
  unfold colStep
  by_cases hb : row.length > hc.2
  · rw [if_pos hb, if_pos hb]
    dsimp only
    by_cases hv : (row.get? hc.2).getD (Cell.str "") ≠ Cell.str ""
    · rw [if_pos hv, if_pos hv, gv_storeAppend, gv_storeAppend]
      by_cases hah : a = appId ∧ h = hc.1
      · rw [if_pos hah, if_pos hah]
        simp [getValuesFromMap, alookup]
      · rw [if_neg hah, if_neg hah]
        simp [getValuesFromMap, alookup]
    · rw [if_neg hv, if_neg hv]
      simp [getValuesFromMap, alookup]
  · rw [if_neg hb, if_neg hb]
    simp [getValuesFromMap, alookup]

/-- The `forEach` over data columns accumulates on top of whatever the store
already holds. -/
theorem gv_colsFold (row : Row) (appId : String) (a h : String) :
    ∀ (dcs : List (String × Nat)) (st2 : Store),
      getValuesFromMap (dcs.foldl (colStep row appId) st2) a h
        = getValuesFromMap st2 a h
          ++ getValuesFromMap (dcs.foldl (colStep row appId) []) a h := by
  intro dcs
  induction dcs with
  | nil => intro st2; simp [getValuesFromMap, alookup]
  | cons dc rest ih =>
    intro st2
    simp only [List.foldl_cons]
    rw [ih (colStep row appId st2 dc), ih (colStep row appId [] dc), gv_colStep,
      List.append_assoc]

/-- One source row contributes its values independently of the store. -/
theorem gv_processRow (ids : List String) (c : Nat) (dcs : List (String × Nat))
    (st : Store) (row : Row) (a h : String) :
    getValuesFromMap (processRow ids c dcs st row) a h
      = getValuesFromMap st a h ++ getValuesFromMap (processRow ids c dcs [] row) a h := by
  unfold processRow
  by_cases hb : row.length ≤ c
  · rw [if_pos hb, if_pos hb]
    simp [getValuesFromMap, alookup]
  · rw [if_neg hb, if_neg hb]
    dsimp only
    by_cases hq : ((row.get? c).map (fun cc => jsTrim cc.toStr)).getD "" ≠ ""
        ∧ ids.contains (((row.get? c).map (fun cc => jsTrim cc.toStr)).getD "")
    · rw [if_pos hq, if_pos hq,
        gv_colsFold row _ a h dcs (storeEnsure st _),
        gv_colsFold row _ a h dcs (storeEnsure [] _),
        gv_storeEnsure, gv_storeEnsure]
      simp [getValuesFromMap, alookup]
    · rw [if_neg hq, if_neg hq]
      simp [getValuesFromMap, alookup]

/-- The scan over a sheet's data rows accumulates on top of the store. -/
theorem gv_rowsFold (ids : List String) (c : Nat) (dcs : List (String × Nat))
    (a h : String) :
    ∀ (rows : List Row) (st : Store),
      getValuesFromMap (rows.foldl (processRow ids c dcs) st) a h
        = getValuesFromMap st a h
          ++ getValuesFromMap (rows.foldl (processRow ids c dcs) []) a h := by
  intro rows
  induction rows with
  | nil => intro st; simp [getValuesFromMap, alookup]
  | cons row rest ih =>
    intro st
    simp only [List.foldl_cons]
    rw [ih (processRow ids c dcs st row), ih (processRow ids c dcs [] row), gv_processRow,
      List.append_assoc]

/-- One rule's whole extraction pass accumulates on top of the store. -/
theorem gv_extractConfig (wb : Workbook) (ids : List String) (st : Store)
    (r : PostureSheetConfig) (a h : String) :
    getValuesFromMap (extractConfig wb ids st r) a h
      = getValuesFromMap st a h ++ getValuesFromMap (extractConfig wb ids [] r) a h := by
  unfold extractConfig
  split
  · simp [getValuesFromMap, alookup]
  · split
    · simp [getValuesFromMap, alookup]
    · dsimp only
      split
      · simp [getValuesFromMap, alookup]
      · split
        · simp [getValuesFromMap, alookup]
        · split
          · apply gv_rowsFold
          · simp [getValuesFromMap, alookup]

/-- The extraction over any rule list accumulates on top of the store. -/
theorem gv_extractFold (wb : Workbook) (ids : List String) (a h : String) :
    ∀ (cfgs : List PostureSheetConfig) (st : Store),
      getValuesFromMap (cfgs.foldl (extractConfig wb ids) st) a h
        = getValuesFromMap st a h ++ getValuesFromMap (extractAll wb ids cfgs) a h := by
  intro cfgs
  induction cfgs with
  | nil => intro st; simp [extractAll, getValuesFromMap, alookup]
  | cons r rest ih =>
    intro st
    simp only [extractAll, List.foldl_cons]
    rw [ih (extractConfig wb ids st r), ih (extractConfig wb ids [] r),
      gv_extractConfig wb ids st r, List.append_assoc]

/-- Extracting `n` copies of the same rule appends the rule's contribution
`n` times over. -/
theorem gv_extract_replicate (wb : Workbook) (ids : List String) (r : PostureSheetConfig)
    (a h : String) :
    ∀ n : Nat,
      getValuesFromMap (extractAll wb ids (List.replicate n r)) a h
        = (List.replicate n (getValuesFromMap (extractConfig wb ids [] r) a h)).flatten := by
  intro n
  induction n with
  | zero => simp [extractAll, getValuesFromMap, alookup]
  | succ m ih =>
    rw [List.replicate_succ]
    unfold extractAll
    rw [List.foldl_cons, gv_extractFold wb ids a h (List.replicate m r) (extractConfig wb ids [] r)]
    rw [ih, List.replicate_succ, List.flatten_cons]

/-- Once a sheet name owns a posture column, further copies of its rule are
dropped. -/
theorem bpc_go_replicate (r : PostureSheetConfig) :
    ∀ (n : Nat) (acc : List (String × PostureSheetConfig)),
      (alookup r.sheetName acc).isSome →
      (List.replicate n r).foldl
          (fun acc c =>
            if (alookup c.sheetName acc).isSome then acc else acc ++ [(c.sheetName, c)])
          acc
        = acc := by
  intro n
  induction n with
  | zero => intro acc _; rfl
  | succ m ih =>
    intro acc hacc
    rw [List.replicate_succ, List.foldl_cons, if_pos hacc]
    exact ih acc hacc

/-- `n ≥ 1` copies of one rule produce exactly one posture column, owned by
that rule. -/
theorem buildPostureColumns_replicate (r : PostureSheetConfig) (n : Nat) (hn : 0 < n) :
    buildPostureColumns (List.replicate n r) = [(r.sheetName, r)] := by
  rcases n with _ | m
  · omega
  · unfold buildPostureColumns
    rw [List.replicate_succ, List.foldl_cons, if_neg (by simp [alookup])]
    simp only [List.nil_append]
    exact bpc_go_replicate r m [(r.sheetName, r)] (by simp [alookup])

/-- C10: when `n ≥ 1` enabled valid rules are identical copies naming the
same source sheet, extraction runs once per copy — every entity's per-header
value list is the one rule's contribution joined `n` times — while summary
assembly keeps a single column owned by that rule, so the surviving column's
cells reflect the `n`-fold duplicated data: on the concrete two-copy Count
workbook the counts double. -/
theorem c10_duplicate_rules_accumulate :
    (∀ (wb : Workbook) (ids : List String) (r : PostureSheetConfig) (n : Nat)
        (a h : String), 0 < n →
        getValuesFromMap (extractAll wb ids (List.replicate n r)) a h
          = (List.replicate n (getValuesFromMap (extractConfig wb ids [] r) a h)).flatten
        ∧ buildPostureColumns (List.replicate n r) = [(r.sheetName, r)])
    ∧ getSheet (runMain wbDupRules) "Posture Summary" =
        some [[Cell.str "Application ID", Cell.str "Patches"],
              [Cell.str "A1", Cell.str "High: 4\nLow: 2"],
              [Cell.str "A2", Cell.str "High: 2"]] :=
  ⟨fun wb ids r n a h hn =>
    ⟨gv_extract_replicate wb ids r a h n, buildPostureColumns_replicate r n hn⟩,
   by decide⟩

/-- Witness for `c10_duplicate_rules_accumulate` at two concrete Count
rules. -/
theorem c10_duplicate_rules_witness :
    getValuesFromMap (extractAll wbDupRules ["A1", "A2"] (List.replicate 2 cfgDupCount))
        "A1" "Severity"
      = (List.replicate 2
          (getValuesFromMap (extractConfig wbDupRules ["A1", "A2"] [] cfgDupCount)
            "A1" "Severity")).flatten
    ∧ buildPostureColumns (List.replicate 2 cfgDupCount)
        = [(cfgDupCount.sheetName, cfgDupCount)] :=
  c10_duplicate_rules_accumulate.1 wbDupRules ["A1", "A2"] cfgDupCount 2 "A1" "Severity"
    (by decide)

/-- C9, counterexample: on a workbook whose only configuration row is
disabled and which already holds a stale summary sheet, the run leaves the
destination untouched (the stale content survives) instead of producing an
effectively empty summary. -/
theorem c9_zero_rules_counterexample :
    loadConfig wbZeroRules = some ([], [])
    ∧ runMain wbZeroRules = wbZeroRules
    ∧ getSheet (runMain wbZeroRules) "Posture Summary" = some [[Cell.str "stale"]] := by
  exact ⟨by decide, by decide, by decide⟩

end PostureReview
